import Mathlib

/-!
Verification of the HabitFlowAI patch scripts
(src/clean_habit_modal.py, src/clean_tracker_grid.py, src/fix_tracker_grid.py).

Buffers are embedded as `List Char`.  Python primitives used by the scripts
are embedded one to one:

* `str.find`            -> `strFind` (index of the leftmost occurrence);
* `s in t`              -> `containsSub`;
* `str.replace`         -> `reSub (litMatcher old) new` (all occurrences,
                           left to right, scanning resumes after each match);
* `re.sub(pat, rep, s)` -> `reSub m rep` where `m` is a backtracking matcher
                           for the concrete pattern `pat`;
* `str.split(sep)`      -> `splitNL` (newline separator);
* `str.strip()`         -> `pyStrip` (ASCII whitespace, the only kind that
                           occurs in the buffers under consideration);
* slicing `s[:i] + s[j:]` -> `List.take i ++ List.drop j`.

The regex patterns that occur in the scripts are all of the shapes
`lit [^X]+ tail` (greedy) or `lit [^X]+? term` (lazy); the matchers below
implement exactly the backtracking order of the `re` engine for those
shapes: greedy quantifiers try the longest gap first, lazy ones the
shortest, and the scan for a match advances one character at a time.
-/

set_option linter.unusedVariables false
set_option maxRecDepth 20000

/-- ASCII whitespace, as matched by the regex class `\s` and by
`str.strip()` on the ASCII buffers handled by the scripts. -/
def isWs (c : Char) : Bool :=
  c = ' ' || c = '\t' || c = '\n' || c = '\r' || c = '\x0b' || c = '\x0c'

/-- Index of the leftmost occurrence of `pat` in `hay`
(Python `hay.find(pat)`, with `none` for the -1 case). -/
def strFind (hay pat : List Char) : Option Nat :=
  match hay with
  | [] => if pat.isEmpty then some 0 else none
  | _ :: t => if pat.isPrefixOf hay then some 0 else (strFind t pat).map (· + 1)

/-- Python substring test (`pat in hay`). -/
def containsSub (hay pat : List Char) : Bool :=
  (strFind hay pat).isSome

/-- Number of positions of `hay` at which `pat` occurs. -/
def countOcc (hay pat : List Char) : Nat :=
  ((List.range (hay.length + 1)).filter (fun i => pat.isPrefixOf (hay.drop i))).length

/-- Length of the run of whitespace at the head of `s`. -/
def wsCount (s : List Char) : Nat :=
  (s.takeWhile isWs).length

/-- Length of the run of characters different from `bad` at the head of `s`. -/
def gapRun (bad : Char) (s : List Char) : Nat :=
  (s.takeWhile (fun c => !(c == bad))).length

/-- Greedy backtracking: try the continuation `k` after consuming `j` then
`j-1` ... then `0` characters of `s`, returning the total consumed length of
the first success.  This is how the `re` engine resolves a greedy `\s*`. -/
def tryDown (k : List Char → Option Nat) (s : List Char) : Nat → Option Nat
  | 0 => k s
  | j + 1 =>
    match k (s.drop (j + 1)) with
    | some r => some (j + 1 + r)
    | none => tryDown k s j

/-- Like `tryDown` but the consumed gap must be at least one character
(the `+` quantifier). -/
def tryDownPos (k : List Char → Option Nat) (s : List Char) : Nat → Option Nat
  | 0 => none
  | j + 1 =>
    match k (s.drop (j + 1)) with
    | some r => some (j + 1 + r)
    | none => tryDownPos k s j

/-- Lazy backtracking: the continuation is tried after consuming `j`, then
`j+1`, ... gap characters, up to `fuel` further extensions (the `+?`
quantifier tries the shortest gap first). -/
def lazyScan (term : List Char → Option Nat) (s : List Char) : Nat → Nat → Option Nat
  | j, fuel =>
    match term (s.drop j) with
    | some t => some (j + t)
    | none =>
      match fuel with
      | 0 => none
      | f + 1 => lazyScan term s (j + 1) f

/-- Matcher for a literal (also embeds one step of Python `str.replace`
and the anchors of the regex patterns). -/
def litMatcher (lit : List Char) (s : List Char) : Option Nat :=
  if lit.isPrefixOf s then some lit.length else none

/-- Matcher for the final `\n` of the blank-line pattern. -/
def mNL : List Char → Option Nat
  | [] => none
  | c :: _ => if c = '\n' then some 1 else none

/-- Matcher for `\n\s*\n` (used as the tail of the blank-line pattern);
the `\s*` is greedy. -/
def mNlWsNl : List Char → Option Nat
  | [] => none
  | c :: rest => if c = '\n' then (tryDown mNL rest (wsCount rest)).map (· + 1) else none

/-- Matcher for the whole cleanup pattern `\n\s*\n\s*\n` of
clean_habit_modal.py line 47. -/
def mBlankRun : List Char → Option Nat
  | [] => none
  | c :: rest => if c = '\n' then (tryDown mNlWsNl rest (wsCount rest)).map (· + 1) else none

/-- Matcher for `lit [^bad]+ tl` with a greedy one-or-more gap
(patterns 1 and 3 of clean_habit_modal.py). -/
def matchLitGapGreedy (lit tl : List Char) (bad : Char) (s : List Char) : Option Nat :=
  if lit.isPrefixOf s then
    (tryDownPos (litMatcher tl) (s.drop lit.length) (gapRun bad (s.drop lit.length))).map
      (· + lit.length)
  else none

/-- Matcher for `lit [^bad]+? term` with a lazy one-or-more gap
(patterns 1 and 2 of clean_tracker_grid.py, where `bad` is the semicolon). -/
def matchLitGapLazy (lit : List Char) (term : List Char → Option Nat) (bad : Char)
    (s : List Char) : Option Nat :=
  if lit.isPrefixOf s then
    match gapRun bad (s.drop lit.length) with
    | 0 => none
    | ww + 1 => (lazyScan term (s.drop lit.length) 1 ww).map (· + lit.length)
  else none

/-- `re.sub(pat, repl, s)` / `s.replace(old, new)`: replace every match of
`m`, scanning left to right and resuming after each match.  All matchers used
by the scripts consume at least one character, so the scan position always
advances. -/
def reSubGo (m : List Char → Option Nat) (repl : List Char) : Nat → List Char → List Char
  | _, [] => []
  | 0, s => s
  | fuel + 1, c :: cs =>
    match m (c :: cs) with
    | some k => repl ++ reSubGo m repl fuel (cs.drop (k - 1))
    | none => c :: reSubGo m repl fuel cs

/-- The scan itself: the fuel is the buffer length, which suffices because
the scan position advances by at least one character per step. -/
def reSub (m : List Char → Option Nat) (repl : List Char) (s : List Char) : List Char :=
  reSubGo m repl s.length s

/-- The marker-pair cut of clean_habit_modal.py lines 35-45 (also the final
cut of clean_tracker_grid.py lines 99-112): find the start marker and the end
marker with `str.find` and, when both are present, splice
`content[:start_idx] + content[end_idx:]`; otherwise leave the buffer as is. -/
def markerCut (sm em c : List Char) : List Char :=
  match strFind c sm, strFind c em with
  | some s, some e => c.take s ++ c.drop e
  | _, _ => c

/-- Whether the marker-pair cut located both of its markers
(the `start_idx != -1 and end_idx != -1` test). -/
def markerCutOk (sm em c : List Char) : Bool :=
  (strFind c sm).isSome && (strFind c em).isSome

/-- Python `str.split(chr(10))`: split on newlines, keeping empty segments. -/
def splitNL : List Char → List (List Char)
  | [] => [[]]
  | c :: cs =>
    if c = '\n' then [] :: splitNL cs
    else
      match splitNL cs with
      | h :: t => (c :: h) :: t
      | [] => [[c]]

/-- Python `str.strip()` on ASCII text. -/
def pyStrip (s : List Char) : List Char :=
  (((s.dropWhile isWs).reverse).dropWhile isWs).reverse

/-! ### clean_habit_modal.py -/

/-- Anchor of pattern 1 of clean_habit_modal.py
(regex `const toggleAssignedDay = \(dayIndex: number\) => \x7b[^\x7d]+\x7d;`). -/
def chmLit1 : List Char := "const toggleAssignedDay = (dayIndex: number) => \x7b".toList

/-- Pattern 2 of clean_habit_modal.py: the `daysOfWeek` literal. -/
def chmLit2 : List Char :=
  "const daysOfWeek = [\x27S\x27, \x27M\x27, \x27T\x27, \x27W\x27, \x27T\x27, \x27F\x27, \x27S\x27];".toList

/-- Anchor of pattern 3 of clean_habit_modal.py (the `else if` block). -/
def chmLit3 : List Char :=
  "\x7d else if (frequency === \x27weekly\x27 && goalType === \x27boolean\x27 && assignedDays.length > 0) \x7b".toList

/-- Old text of the first `str.replace` call (line 25). -/
def chmRep1Old : List Char :=
  "assignedDays: frequency === \x27daily\x27 ? assignedDays : undefined,".toList

/-- Old text of the second `str.replace` call (line 28). -/
def chmRep2Old : List Char :=
  "assignedDays: frequency === \x27weekly\x27 ? assignedDays : undefined,".toList

/-- New text of both `str.replace` calls. -/
def chmRepNew : List Char := "assignedDays: undefined,".toList

/-- `start_marker` of clean_habit_modal.py line 32. -/
def chmStart : List Char :=
  "\x7b/* 3. Specific Configuration based on Weekly/Type (Only if Regular or Weekly Bundle) */\x7d".toList

/-- `end_marker` of clean_habit_modal.py line 33. -/
def chmEnd : List Char :=
  "\x7b/* 4. Configuration for Daily/Total (Legacy support mostly) */\x7d".toList

/-- Matcher of pattern 1: anchor, greedy `[^\x7d]+`, then the two
characters closing brace and semicolon. -/
def mToggle : List Char → Option Nat :=
  matchLitGapGreedy chmLit1 ("\x7d;".toList) '\x7d'

/-- Matcher of pattern 3: anchor, greedy `[^\x7d]+`, then a closing brace. -/
def mElseIf : List Char → Option Nat :=
  matchLitGapGreedy chmLit3 ("\x7d".toList) '\x7d'

/-- The blank-line normalization pass of clean_habit_modal.py line 47:
`re.sub` of the pattern `\n\s*\n\s*\n` with replacement of two newlines. -/
def normalizeBlank : List Char → List Char :=
  reSub mBlankRun ('\n' :: '\n' :: [])

/-- Passes 1-4 of clean_habit_modal.py, in source order: the two block
regexes, the `daysOfWeek` literal removal and the two `str.replace` calls. -/
def chmPasses (c : List Char) : List Char :=
  reSub (litMatcher chmRep2Old) chmRepNew
    (reSub (litMatcher chmRep1Old) chmRepNew
      (reSub mElseIf []
        (reSub (litMatcher chmLit2) []
          (reSub mToggle [] c))))

/-- The full buffer transformation of clean_habit_modal.py: passes 1-4,
the marker-pair cut, then the blank-line normalization. -/
def chmPipeline (c : List Char) : List Char :=
  normalizeBlank (markerCut chmStart chmEnd (chmPasses c))

/-- What clean_habit_modal.py persists: the script writes the processed
buffer back unconditionally (the `open(target_file, w)` block at line 50
is outside the marker `if`/`else`). -/
def chmWrite (c : List Char) : Option (List Char) :=
  some (chmPipeline c)

/-! ### clean_tracker_grid.py -/

/-- Start marker of clean_tracker_grid.py (also the `skip` trigger of the
line-scan loop): the WeeklyHabitRowContent definition head. -/
def ctgM1 : List Char := "const WeeklyHabitRowContent = (\x7b".toList

/-- End marker of clean_tracker_grid.py (also the `skip` release of the
line-scan loop). -/
def ctgM2 : List Char := "// SortableWeeklyHabitRow removed/commented out".toList

/-- Second `skip` trigger of the line-scan loop. -/
def ctgStart2 : List Char := "const handleOpenChoiceLog =".toList

/-- Anchor of regex pattern 2 of clean_tracker_grid.py (note the trailing
space, unlike the line-scan trigger). -/
def ctgHoclLit : List Char := "const handleOpenChoiceLog = ".toList

/-- The stripped line that releases the `skip` flag at the end of the loop
body: closing brace and semicolon. -/
def ctgClose : List Char := "\x7d;".toList

/-- Matcher of clean_tracker_grid.py pattern 1
(`const WeeklyHabitRowContent = \(\x7b[^;]+?\n\x7d;`): lazy gap over
non-semicolons, terminated by newline, closing brace, semicolon. -/
def mWhrc : List Char → Option Nat :=
  matchLitGapLazy ctgM1 (litMatcher ("\n\x7d;".toList)) ';'

/-- Terminator `\n\s*\x7d;` of clean_tracker_grid.py pattern 2
(greedy inner `\s*`). -/
def termNlWsClose (s : List Char) : Option Nat :=
  match s with
  | '\n' :: rest => (tryDown (litMatcher ctgClose) rest (wsCount rest)).map (· + 1)
  | _ => none

/-- Matcher of clean_tracker_grid.py pattern 2
(`const handleOpenChoiceLog = [^;]+?\n\s*\x7d;`). -/
def mHocl : List Char → Option Nat :=
  matchLitGapLazy ctgHoclLit termNlWsClose ';'

/-- One iteration of the line-scan loop of clean_tracker_grid.py lines
62-89: the four sequential `if`s updating the shared `skip` flag, the
conditional append, and the trailing stripped-close check.  Returns the
new flag and the emitted line, if any. -/
def scanStep (skip : Bool) (line : List Char) : Bool × Option (List Char) :=
  let s1 := if containsSub line ctgM1 then true else skip
  let s2 := if containsSub line ctgM2 && s1 then false else s1
  let s3 := if containsSub line ctgStart2 then true else s2
  let emit := if s3 then none else some line
  let s4 := if s3 && (pyStrip line == ctgClose) then false else s3
  (s4, emit)

/-- The full line-scan loop, threading the `skip` flag and collecting the
appended lines (`new_lines`). -/
def lineScan (skip : Bool) : List (List Char) → List (List Char)
  | [] => []
  | l :: ls =>
    match scanStep skip l with
    | (sk, some x) => x :: lineScan sk ls
    | (sk, none) => lineScan sk ls

/-- `new_lines` as produced from an initial `skip = False` state. -/
def lineFilter (lines : List (List Char)) : List (List Char) :=
  lineScan false lines

/-- The string join `"".join(l + chr(10) for l in lines)` (clean_tracker_grid.py line 99):
note that it joins `lines`, not `new_lines`. -/
def joinNLAll (ls : List (List Char)) : List Char :=
  (ls.map (· ++ ['\n'])).flatten

/-- The whole of clean_tracker_grid.py as a function from the content of
the target file to the content written back (`none` when the script does
not write).  The intermediate passes are bound exactly as in the source;
the final block (lines 99-112) re-reads the file -- which is still
unmodified, since nothing has been written -- and its single cut is the
only value that reaches the write. -/
def ctgScript (file : List Char) : Option (List Char) :=
  let c1 := reSub mWhrc [] file
  let c2 := reSub mHocl [] c1
  let c3 := markerCut ctgM1 ctgM2 c2
  let lines := splitNL c3
  let newLines := lineFilter lines
  let c4 := joinNLAll lines
  match strFind file ctgM1, strFind file ctgM2 with
  | some s, some e => some (file.take s ++ file.drop e)
  | _, _ => none

/-- Modelled from the claim statement for the refinement comparison: the
net effect is one contiguous cut of the original content, from the first
occurrence of the WeeklyHabitRowContent head up to (excluding) the first
occurrence of the SortableWeeklyHabitRow comment, and no write at all when
either marker is absent. -/
def ctgSpecCut (file : List Char) : Option (List Char) :=
  match strFind file ctgM1, strFind file ctgM2 with
  | some s, some e => some (file.take s ++ file.drop e)
  | _, _ => none

/-! ### fix_tracker_grid.py -/

/-- First cutoff marker of fix_tracker_grid.py (with a space before the
closing brace). -/
def ftgM1 : List Char := "\x7b/* Weekly Habits Section - Redesigned as Cards */ \x7d".toList

/-- Second cutoff marker (without the space). -/
def ftgM2 : List Char := "\x7b/* Weekly Habits Section - Redesigned as Cards */\x7d".toList

/-- Needle of the fallback search. -/
def ftgNeedle : List Char := "weeklyHabits.length > 0".toList

/-- The cutoff search loop of fix_tracker_grid.py lines 10-17: the index of
the first line containing either marker. -/
def findCutoff : List (List Char) → Option Nat
  | [] => none
  | l :: ls =>
    if containsSub l ftgM1 || containsSub l ftgM2 then some 0
    else (findCutoff ls).map (· + 1)

/-- The fallback loop of lines 22-25: the first enumerated line with index
above 1200 containing the needle; the cutoff backs up one line. -/
def fallbackFind : List (List Char) → Nat → Option Nat
  | [], _ => none
  | l :: ls, i =>
    if containsSub l ftgNeedle ∧ 1200 < i then some (i - 1)
    else fallbackFind ls (i + 1)

/-- `cutoff_index` after the fallback (enumeration starts at 0). -/
def fallbackCutoff (lines : List (List Char)) : Option Nat :=
  fallbackFind lines 0

/-- The whole of fix_tracker_grid.py as a function from the line list of
the target file (`f.readlines()`) to the written content: keep
`lines[:cutoff_index+1]` -- the matched line included -- append the
regenerated tail, and write; with no cutoff and no fallback the script
exits without writing.  The regenerated tail (`new_bottom`, a hard-coded
TSX block whose exact text none of the verified properties depend on) is a
parameter. -/
def ftgRun (newBottom : List Char) (lines : List (List Char)) : Option (List Char) :=
  match findCutoff lines with
  | some k => some ((lines.take (k + 1)).flatten ++ newBottom)
  | none =>
    match fallbackCutoff lines with
    | some k => some ((lines.take (k + 1)).flatten ++ newBottom)
    | none => none

/-! ### Concrete buffers used by the worked examples -/

/-- The buffer of spec Example 1. -/
def exBuf1 : List Char := "A\nSTART\nfoo\nbar\nEND\nB\n".toList

/-- The start marker of spec Example 1. -/
def exStart : List Char := "START\n".toList

/-- The end marker of spec Example 1. -/
def exEnd : List Char := "END\n".toList

/-- A buffer on which the daysOfWeek removal of clean_habit_modal.py
re-matches after its own first application: the literal appears once, spliced
inside a copy of itself (first six characters before it, the remainder after
it), followed by a unique marker pair so that the first run fully succeeds. -/
def chmIdemB0 : List Char :=
  "const ".toList ++ chmLit2 ++ chmLit2.drop 6 ++ "\n".toList ++ chmStart ++ "x".toList ++ chmEnd

/-- The output of the first clean_habit_modal.py run on `chmIdemB0`. -/
def chmIdemB1 : List Char := chmLit2 ++ "\n".toList ++ chmEnd

/-- A buffer in which the start marker of clean_habit_modal.py occurs twice
(once more after the end marker). -/
def c1TwiceBuf : List Char := chmStart ++ "x".toList ++ chmEnd ++ chmStart

/-- A three-line file for fix_tracker_grid.py whose middle line contains the
cutoff marker with text on both sides of it. -/
def c9Lines : List (List Char) :=
  ["A\n".toList, "X".toList ++ ftgM1 ++ "Y\n".toList, "B\n".toList]

/-! ### General lemmas about the embedded primitives -/

theorem isPrefixOf_append_self (l t : List Char) : l.isPrefixOf (l ++ t) = true := by
  induction l with
  | nil => simp [List.isPrefixOf]
  | cons a as ih => simp [List.isPrefixOf, ih]

theorem strFind_append (p rest pat : List Char)
    (h : ∀ i, i < p.length → pat.isPrefixOf ((p ++ rest).drop i) = false)
    (hhit : pat.isPrefixOf rest = true) :
    strFind (p ++ rest) pat = some p.length := by
  induction p with
  | nil =>
    simp only [List.nil_append]
    cases rest with
    | nil =>
      cases pat with
      | nil => rfl
      | cons c cs => simp [List.isPrefixOf] at hhit
    | cons c cs =>
      simp [strFind, hhit]
  | cons a pp ih =>
    have h0 := h 0 (by simp)
    simp only [List.drop_zero, List.cons_append] at h0
    have hrec := ih (fun i hi => by
      have := h (i + 1) (by simp; omega)
      simpa using this)
    have h0b : ¬ pat <+: a :: (pp ++ rest) := by
      rw [← List.isPrefixOf_iff_prefix]
      simp [h0]
    simp [strFind, h0b, hrec]

theorem strFind_none_of (hay pat : List Char)
    (h : ∀ i, i ≤ hay.length → pat.isPrefixOf (hay.drop i) = false) :
    strFind hay pat = none := by
  induction hay with
  | nil =>
    have h0 := h 0 (by simp)
    cases pat with
    | nil => simp [List.isPrefixOf] at h0
    | cons c cs => simp [strFind]
  | cons a t ih =>
    have h0 := h 0 (by simp)
    simp only [List.drop_zero] at h0
    have hrec := ih (fun i hi => by
      have := h (i + 1) (by simp; omega)
      simpa using this)
    simp [strFind, h0, hrec]

theorem strFind_some_le (hay pat : List Char) (s : Nat)
    (h : strFind hay pat = some s) : s ≤ hay.length := by
  induction hay generalizing s with
  | nil =>
    by_cases hp : pat.isEmpty <;> simp [strFind, hp] at h
    omega
  | cons a t ih =>
    by_cases hp : pat.isPrefixOf (a :: t) = true
    · simp [strFind, hp] at h
      omega
    · rw [Bool.not_eq_true] at hp
      simp [strFind, hp] at h
      obtain ⟨s2, hs2, rfl⟩ := h
      have := ih s2 hs2
      simp
      omega

theorem markerCut_of_finds (sm em c : List Char) (s e : Nat)
    (hs : strFind c sm = some s) (he : strFind c em = some e) :
    markerCut sm em c = c.take s ++ c.drop e := by
  simp [markerCut, hs, he]

theorem markerCut_of_no_start (sm em c : List Char)
    (hs : strFind c sm = none) :
    markerCut sm em c = c := by
  unfold markerCut
  rw [hs]

/-- The marker cut on a schematic buffer: when the start marker first occurs
exactly at the end of `p` and the end marker first occurs exactly after `q`,
the splice removes the start marker and the body and keeps the end marker. -/
theorem markerCut_at (sm em p q r : List Char)
    (h1 : ∀ i, i < p.length → sm.isPrefixOf ((p ++ sm ++ q ++ em ++ r).drop i) = false)
    (h2 : ∀ i, i < p.length + sm.length + q.length →
      em.isPrefixOf ((p ++ sm ++ q ++ em ++ r).drop i) = false) :
    markerCut sm em (p ++ sm ++ q ++ em ++ r) = p ++ em ++ r := by
  have hassoc : p ++ sm ++ q ++ em ++ r = p ++ (sm ++ (q ++ (em ++ r))) := by
    simp [List.append_assoc]
  have hassoc2 : p ++ sm ++ q ++ em ++ r = (p ++ sm ++ q) ++ (em ++ r) := by
    simp [List.append_assoc]
  have hs : strFind (p ++ sm ++ q ++ em ++ r) sm = some p.length := by
    rw [hassoc]
    refine strFind_append p (sm ++ (q ++ (em ++ r))) sm ?_
      (isPrefixOf_append_self sm (q ++ (em ++ r)))
    intro i hi
    rw [← hassoc]
    exact h1 i hi
  have he : strFind (p ++ sm ++ q ++ em ++ r) em = some (p ++ sm ++ q).length := by
    rw [hassoc2]
    refine strFind_append (p ++ sm ++ q) (em ++ r) em ?_ (isPrefixOf_append_self em r)
    intro i hi
    rw [← hassoc2]
    refine h2 i ?_
    rw [List.length_append, List.length_append] at hi
    omega
  rw [markerCut_of_finds _ _ _ _ _ hs he]
  have ht : (p ++ sm ++ q ++ em ++ r).take p.length = p := by
    rw [hassoc]
    exact List.take_left p _
  have hd : (p ++ sm ++ q ++ em ++ r).drop (p ++ sm ++ q).length = em ++ r := by
    rw [hassoc2]
    exact List.drop_left _ _
  rw [ht, hd, List.append_assoc]

theorem reSubGo_fuel (m : List Char → Option Nat) (repl : List Char) :
    ∀ fuel fuel2 s, s.length ≤ fuel → s.length ≤ fuel2 →
      reSubGo m repl fuel s = reSubGo m repl fuel2 s := by
  intro fuel
  induction fuel with
  | zero =>
    intro fuel2 s h1 h2
    have : s = [] := by
      cases s with
      | nil => rfl
      | cons c cs => simp at h1
    subst this
    cases fuel2 <;> rfl
  | succ fuel ih =>
    intro fuel2 s h1 h2
    cases s with
    | nil => cases fuel2 <;> rfl
    | cons c cs =>
      cases fuel2 with
      | zero => simp at h2
      | succ f2 =>
        rw [reSubGo, reSubGo]
        simp only [List.length_cons] at h1 h2
        cases hm : m (c :: cs) with
        | none =>
          show c :: reSubGo m repl fuel cs = c :: reSubGo m repl f2 cs
          rw [ih f2 cs (by omega) (by omega)]
        | some k =>
          show repl ++ reSubGo m repl fuel (cs.drop (k - 1)) =
            repl ++ reSubGo m repl f2 (cs.drop (k - 1))
          rw [ih f2 (cs.drop (k - 1)) (by simp [List.length_drop]; omega)
            (by simp [List.length_drop]; omega)]

theorem reSub_nil (m : List Char → Option Nat) (repl : List Char) :
    reSub m repl [] = [] := rfl

theorem reSub_cons_none (m : List Char → Option Nat) (repl : List Char)
    (c : Char) (cs : List Char) (h : m (c :: cs) = none) :
    reSub m repl (c :: cs) = c :: reSub m repl cs := by
  show reSubGo m repl (cs.length + 1) (c :: cs) = c :: reSubGo m repl cs.length cs
  rw [reSubGo, h]

theorem reSub_cons_some (m : List Char → Option Nat) (repl : List Char)
    (c : Char) (cs : List Char) (k : Nat) (h : m (c :: cs) = some k) :
    reSub m repl (c :: cs) = repl ++ reSub m repl (cs.drop (k - 1)) := by
  show reSubGo m repl (cs.length + 1) (c :: cs) =
    repl ++ reSubGo m repl (cs.drop (k - 1)).length (cs.drop (k - 1))
  rw [reSubGo, h]
  show repl ++ reSubGo m repl cs.length (cs.drop (k - 1)) =
    repl ++ reSubGo m repl (cs.drop (k - 1)).length (cs.drop (k - 1))
  rw [reSubGo_fuel m repl cs.length (cs.drop (k - 1)).length (cs.drop (k - 1))
    (by simp [List.length_drop]) (Nat.le_refl _)]

theorem tryDown_eq_of (k : List Char → Option Nat) (s : List Char) (j i r : Nat)
    (hij : i ≤ j) (hk : k (s.drop i) = some r)
    (habove : ∀ i2, i < i2 → i2 ≤ j → k (s.drop i2) = none) :
    tryDown k s j = some (i + r) := by
  induction j with
  | zero =>
    have hi0 : i = 0 := by omega
    subst hi0
    simpa [tryDown] using hk
  | succ j ih =>
    by_cases hi : i = j + 1
    · subst hi
      simp [tryDown, hk]
    · have hle : i ≤ j := by omega
      have hnone := habove (j + 1) (by omega) (Nat.le_refl _)
      rw [tryDown, hnone]
      exact ih hle (fun i2 hgt hle2 => habove i2 hgt (by omega))

theorem rep_append_drop (m i : Nat) (x : Char) (t : List Char) (h : i ≤ m) :
    (List.replicate m x ++ t).drop i = List.replicate (m - i) x ++ t := by
  rw [List.drop_append_eq_append_drop, List.drop_replicate]
  have : i - (List.replicate m x).length = 0 := by
    simp [List.length_replicate]
    omega
  rw [this, List.drop_zero]

theorem wsCount_rep (m : Nat) (c : Char) (hc : isWs c = false) :
    wsCount (List.replicate m '\n' ++ [c]) = m := by
  induction m with
  | zero => simp [wsCount, List.takeWhile, hc]
  | succ m ih =>
    rw [List.replicate_succ, List.cons_append]
    have : isWs '\n' = true := by decide
    simp only [wsCount, List.takeWhile_cons, this, if_true, List.length_cons]
    have := ih
    simp only [wsCount] at this
    omega

theorem mBlankRun_rep (n : Nat) (hn : 3 ≤ n) (c : Char) (hc : isWs c = false) :
    mBlankRun (List.replicate n '\n' ++ [c]) = some n := by
  have hcn : ¬ (c = '\n') := by
    intro h
    rw [h] at hc
    simp [isWs] at hc
  obtain ⟨m, rfl⟩ : ∃ m, n = m + 3 := ⟨n - 3, by omega⟩
  rw [show m + 3 = (m + 2) + 1 by omega, List.replicate_succ, List.cons_append]
  show (if ('\n' : Char) = '\n' then
      (tryDown mNlWsNl (List.replicate (m + 2) '\n' ++ [c])
        (wsCount (List.replicate (m + 2) '\n' ++ [c]))).map (· + 1)
    else none) = some (m + 2 + 1)
  rw [if_pos rfl, wsCount_rep _ _ hc]
  have hk : mNlWsNl ((List.replicate (m + 2) '\n' ++ [c]).drop m) = some 2 := by
    rw [rep_append_drop _ _ _ _ (by omega)]
    have h2 : m + 2 - m = 2 := by omega
    rw [h2]
    show (if ('\n' : Char) = '\n' then
        (tryDown mNL (List.replicate 1 '\n' ++ [c])
          (wsCount (List.replicate 1 '\n' ++ [c]))).map (· + 1)
      else none) = some 2
    rw [if_pos rfl, wsCount_rep _ _ hc]
    have h1 : tryDown mNL (List.replicate 1 '\n' ++ [c]) 1 = some 1 := by
      rw [tryDown]
      have : mNL ((List.replicate 1 '\n' ++ [c]).drop 1) = none := by
        rw [rep_append_drop _ _ _ _ (by omega)]
        simp [mNL, hcn]
      rw [this, tryDown]
      rfl
    rw [h1]
    rfl
  have habove : ∀ i2, m < i2 → i2 ≤ m + 2 →
      mNlWsNl ((List.replicate (m + 2) '\n' ++ [c]).drop i2) = none := by
    intro i2 hgt hle
    rw [rep_append_drop _ _ _ _ (by omega)]
    have : m + 2 - i2 = 1 ∨ m + 2 - i2 = 0 := by omega
    rcases this with h | h
    · rw [h]
      show (if ('\n' : Char) = '\n' then
          (tryDown mNL [c] (wsCount [c])).map (· + 1) else none) = none
      rw [if_pos rfl]
      have hw : wsCount [c] = 0 := by
        simp [wsCount, List.takeWhile, hc]
      rw [hw, tryDown]
      simp [mNL, hcn]
    · rw [h]
      simp [mNlWsNl, hcn]
  rw [tryDown_eq_of mNlWsNl _ (m + 2) m 2 (by omega) hk habove]
  rfl

theorem scanStep_copy (l : List Char)
    (h1 : containsSub l ctgM1 = false) (h2 : containsSub l ctgStart2 = false) :
    scanStep false l = (false, some l) := by
  simp [scanStep, h1, h2]

theorem scanStep_enter (l : List Char)
    (h1 : containsSub l ctgM1 = true) (h2 : containsSub l ctgM2 = false)
    (h4 : (pyStrip l == ctgClose) = false) :
    scanStep false l = (true, none) ∧ scanStep true l = (true, none) := by
  constructor <;> simp [scanStep, h1, h2, h4]

theorem scanStep_skip_stay (l : List Char)
    (h2 : containsSub l ctgM2 = false) (h4 : (pyStrip l == ctgClose) = false) :
    scanStep true l = (true, none) := by
  simp [scanStep, h2, h4]

theorem scanStep_end_emit (l : List Char)
    (h1 : containsSub l ctgM2 = true) (h2 : containsSub l ctgStart2 = false) :
    scanStep true l = (false, some l) := by
  simp [scanStep, h1, h2]

theorem scanStep_close_consume (l : List Char)
    (h2 : containsSub l ctgM2 = false) (h4 : (pyStrip l == ctgClose) = true) :
    scanStep true l = (false, none) := by
  simp [scanStep, h2, h4]

theorem lineScan_copy_append (pre rest : List (List Char))
    (h : ∀ l ∈ pre, containsSub l ctgM1 = false ∧ containsSub l ctgStart2 = false) :
    lineScan false (pre ++ rest) = pre ++ lineScan false rest := by
  induction pre with
  | nil => simp
  | cons a pp ih =>
    have ha := h a (by simp)
    rw [List.cons_append, lineScan, scanStep_copy a ha.1 ha.2]
    show a :: lineScan false (pp ++ rest) = (a :: pp) ++ lineScan false rest
    rw [ih (fun l hl => h l (by simp [hl]))]
    rfl

theorem lineScan_skip_all (tl : List (List Char))
    (h : ∀ l ∈ tl, containsSub l ctgM2 = false ∧ (pyStrip l == ctgClose) = false) :
    lineScan true tl = [] := by
  induction tl with
  | nil => rfl
  | cons a tt ih =>
    have ha := h a (by simp)
    rw [lineScan, scanStep_skip_stay a ha.1 ha.2]
    exact ih (fun l hl => h l (by simp [hl]))

theorem findCutoff_none (lines : List (List Char))
    (h : ∀ l ∈ lines, containsSub l ftgM1 = false ∧ containsSub l ftgM2 = false) :
    findCutoff lines = none := by
  induction lines with
  | nil => rfl
  | cons a ls ih =>
    have ha := h a (by simp)
    rw [findCutoff]
    simp [ha.1, ha.2, ih (fun l hl => h l (by simp [hl]))]

theorem fallbackFind_none (lines : List (List Char)) (i : Nat)
    (h : ∀ l ∈ lines, containsSub l ftgNeedle = false) :
    fallbackFind lines i = none := by
  induction lines generalizing i with
  | nil => rfl
  | cons a ls ih =>
    have ha := h a (by simp)
    rw [fallbackFind]
    simp [ha, ih (i + 1) (fun l hl => h l (by simp [hl]))]

theorem findCutoff_append (pre post : List (List Char)) (line : List Char)
    (h : ∀ l ∈ pre, containsSub l ftgM1 = false ∧ containsSub l ftgM2 = false)
    (hl : (containsSub line ftgM1 || containsSub line ftgM2) = true) :
    findCutoff (pre ++ line :: post) = some pre.length := by
  induction pre with
  | nil => simp [findCutoff, hl]
  | cons a pp ih =>
    have ha := h a (by simp)
    rw [List.cons_append, findCutoff]
    simp [ha.1, ha.2, ih (fun l hl2 => h l (by simp [hl2]))]

theorem take_len_succ {α : Type} (pre post : List α) (a : α) :
    (pre ++ a :: post).take (pre.length + 1) = pre ++ [a] := by
  induction pre with
  | nil => simp
  | cons x pp ih => simp [ih]

/-! ### Claim C5 -/

/-- C5 counterexample: on the buffer of spec Example 1, the marker-pair cut
of clean_habit_modal.py removes the start marker together with the body (the
splice starts at the start of the start marker), so the result is not the
claimed one that keeps both markers. -/
theorem C5_start_marker_removed_cx :
    markerCut exStart exEnd exBuf1 = "A\nEND\nB\n".toList ∧
    markerCut exStart exEnd exBuf1 ≠ "A\nSTART\nEND\nB\n".toList := by
  constructor
  · decide
  · decide

/-- C5 amended: the cut removes the span from the start of the start marker
up to (excluding) the start of the end marker, so the body and the start
marker are removed and the end marker is kept: on a schematic buffer with
the markers first occurring at the shown places, the result is the prefix,
then the end marker, then the tail. -/
theorem C5_cut_span (sm em p q r : List Char)
    (h1 : ∀ i, i < p.length → sm.isPrefixOf ((p ++ sm ++ q ++ em ++ r).drop i) = false)
    (h2 : ∀ i, i < p.length + sm.length + q.length →
      em.isPrefixOf ((p ++ sm ++ q ++ em ++ r).drop i) = false) :
    markerCut sm em (p ++ sm ++ q ++ em ++ r) = p ++ em ++ r :=
  markerCut_at sm em p q r h1 h2

/-- C5 witness: the amended cut at the data of spec Example 1 yields the
buffer with the body and the start marker removed. -/
theorem C5_cut_span_w :
    markerCut exStart exEnd
      ("A\n".toList ++ exStart ++ "foo\nbar\n".toList ++ exEnd ++ "B\n".toList) =
      "A\n".toList ++ exEnd ++ "B\n".toList :=
  C5_cut_span exStart exEnd ("A\n".toList) ("foo\nbar\n".toList) ("B\n".toList)
    (by decide) (by decide)

/-! ### Claim C1 -/

/-- C1 counterexample: a buffer in which the start marker occurs twice; the
engine does not return an ambiguity outcome and leave the buffer unchanged --
the cut is applied (the buffer changes). -/
theorem C1_pick_first_cx :
    countOcc c1TwiceBuf chmStart = 2 ∧
    markerCut chmStart chmEnd c1TwiceBuf ≠ c1TwiceBuf := by
  constructor
  · decide
  · decide

/-- C1 amended: the locator is `str.find`, i.e. unconditional first-match
semantics: even when the start marker occurs two or more times, the edit is
applied between the first occurrence of each marker (no `Ambiguous` outcome
exists anywhere in the scripts). -/
theorem C1_first_occurrence_applied (p q r : List Char)
    (hcnt : 2 ≤ countOcc (p ++ chmStart ++ q ++ chmEnd ++ r) chmStart)
    (h1 : ∀ i, i < p.length →
      chmStart.isPrefixOf ((p ++ chmStart ++ q ++ chmEnd ++ r).drop i) = false)
    (h2 : ∀ i, i < p.length + chmStart.length + q.length →
      chmEnd.isPrefixOf ((p ++ chmStart ++ q ++ chmEnd ++ r).drop i) = false) :
    markerCut chmStart chmEnd (p ++ chmStart ++ q ++ chmEnd ++ r) = p ++ chmEnd ++ r :=
  markerCut_at chmStart chmEnd p q r h1 h2

/-- C1 witness: with the second start-marker occurrence sitting in the tail,
the cut still fires at the first occurrence pair. -/
theorem C1_first_occurrence_applied_w :
    markerCut chmStart chmEnd ("A".toList ++ chmStart ++ "x".toList ++ chmEnd ++ chmStart) =
      "A".toList ++ chmEnd ++ chmStart :=
  C1_first_occurrence_applied ("A".toList) ("x".toList) chmStart
    (by decide) (by decide) (by decide)

/-! ### Claim C4 -/

/-- C4: no out-of-region mutation.  For the splice edit at a located span
(start of the start marker to start of the end marker), every byte strictly
before the span is unchanged and every byte from the end of the span onward
reappears unchanged (shifted left by the removed length); and for the tail
replacement of fix_tracker_grid.py, the kept part is the exact prefix of the
original line list, byte for byte. -/
theorem C4_no_out_of_region_mutation (sm em c : List Char) (s e : Nat)
    (hs : strFind c sm = some s) (he : strFind c em = some e) (hse : s ≤ e) :
    (∀ i, i < s → (markerCut sm em c)[i]? = (c)[i]?) ∧
    (∀ j, (markerCut sm em c)[s + j]? = (c)[e + j]?) ∧
    (∀ nb lines k, findCutoff lines = some k →
      ftgRun nb lines = some ((lines.take (k + 1)).flatten ++ nb) ∧
      lines.flatten = (lines.take (k + 1)).flatten ++ (lines.drop (k + 1)).flatten) := by
  have hsl : s ≤ c.length := strFind_some_le c sm s hs
  have hcut := markerCut_of_finds sm em c s e hs he
  have hlen : (c.take s).length = s := by
    rw [List.length_take]
    exact min_eq_left hsl
  refine ⟨?_, ?_, ?_⟩
  · intro i hi
    rw [hcut, List.getElem?_append]
    rw [hlen]
    rw [if_pos hi, List.getElem?_take, if_pos hi]
  · intro j
    rw [hcut, List.getElem?_append_right (by rw [hlen]; omega)]
    have hidx : s + j - (c.take s).length = j := by
      rw [hlen]
      omega
    rw [hidx, List.getElem?_drop]
  · intro nb lines k hk
    constructor
    · simp [ftgRun, hk]
    · conv_lhs => rw [← List.take_append_drop (k + 1) lines]
      rw [List.flatten_append]

/-- C4 witness: the frame property evaluated at spec Example 1 and at the
three-line fix_tracker_grid file. -/
theorem C4_no_out_of_region_mutation_w :
    (markerCut exStart exEnd exBuf1)[1]? = (exBuf1)[1]? ∧
    (markerCut exStart exEnd exBuf1)[2 + 3]? = (exBuf1)[16 + 3]? ∧
    ftgRun [] c9Lines = some ((c9Lines.take (1 + 1)).flatten ++ []) := by
  have h := C4_no_out_of_region_mutation exStart exEnd exBuf1 2 16
    (by decide) (by decide) (by decide)
  exact ⟨h.1 1 (by decide), h.2.1 3, (h.2.2 [] c9Lines 1 (by decide)).1⟩

/-! ### Claim C9 -/

/-- C9 counterexample: the buffer offset of the cutoff marker is 3, but the
written content is not the prefix before offset 3 followed by the new tail --
the whole matched line, text after the marker included, is kept. -/
theorem C9_marker_line_kept_cx :
    strFind c9Lines.flatten ftgM1 = some 3 ∧
    ftgRun [] c9Lines = some ("A\n".toList ++ ("X".toList ++ ftgM1 ++ "Y\n".toList)) ∧
    ftgRun [] c9Lines ≠ some ((c9Lines.flatten).take 3 ++ []) := by
  refine ⟨by decide, by decide, by decide⟩

/-- C9 amended: the tail replacement cuts at the end of the first line
containing a cutoff marker, not at the marker start offset: the written
content is the lines before the matched line, then the whole matched line,
then the regenerated tail. -/
theorem C9_tail_replace_after_line (nb : List Char) (pre post : List (List Char))
    (line : List Char)
    (hpre : ∀ l ∈ pre, containsSub l ftgM1 = false ∧ containsSub l ftgM2 = false)
    (hline : (containsSub line ftgM1 || containsSub line ftgM2) = true) :
    ftgRun nb (pre ++ line :: post) = some (pre.flatten ++ line ++ nb) := by
  have hk := findCutoff_append pre post line hpre hline
  simp only [ftgRun, hk]
  rw [take_len_succ, List.flatten_append]
  simp [List.append_assoc]

/-- C9 witness: the amended statement at the three-line example file. -/
theorem C9_tail_replace_after_line_w :
    ftgRun ("NB".toList) c9Lines =
      some (([("A\n".toList)] : List (List Char)).flatten ++
        ("X".toList ++ ftgM1 ++ "Y\n".toList) ++ "NB".toList) := by
  exact C9_tail_replace_after_line ("NB".toList) ["A\n".toList] ["B\n".toList]
    ("X".toList ++ ftgM1 ++ "Y\n".toList) (by decide) (by decide)

/-! ### Claim C6 -/

/-- C6 counterexample: a start line whose end condition never follows: the
loop silently emits the truncated line list (here empty), with no error
outcome of any kind in the code. -/
theorem C6_silent_truncation_cx :
    lineFilter [ctgM1, "x".toList] = [] ∧
    lineFilter [ctgM1, "x".toList] ≠ [ctgM1, "x".toList] := by
  refine ⟨by decide, by decide⟩

/-- C6 amended: when the start condition fires and no line of the remaining
input satisfies an end condition, the loop silently drops the whole tail:
the output is exactly the lines before the start line, and the code has no
error channel at all (the function is total into a plain line list). -/
theorem C6_tail_dropped (pre tl : List (List Char)) (line : List Char)
    (hpre : ∀ l ∈ pre, containsSub l ctgM1 = false ∧ containsSub l ctgStart2 = false)
    (h1 : containsSub line ctgM1 = true)
    (h2 : containsSub line ctgM2 = false)
    (h4 : (pyStrip line == ctgClose) = false)
    (htl : ∀ l ∈ tl, containsSub l ctgM2 = false ∧ (pyStrip l == ctgClose) = false) :
    lineFilter (pre ++ line :: tl) = pre := by
  unfold lineFilter
  rw [lineScan_copy_append pre (line :: tl) hpre]
  rw [lineScan, (scanStep_enter line h1 h2 h4).1]
  show pre ++ lineScan true tl = pre
  rw [lineScan_skip_all tl htl, List.append_nil]

/-- C6 witness: the amended statement at a two-line input. -/
theorem C6_tail_dropped_w :
    lineFilter (["a".toList] ++ ctgM1 :: ["x".toList, "y".toList]) = ["a".toList] := by
  exact C6_tail_dropped ["a".toList] ["x".toList, "y".toList] ctgM1
    (by decide) (by decide) (by decide) (by decide) (by decide)

/-! ### Claim C7 -/

/-- C7 counterexample: the line satisfying the first end condition is
emitted, not consumed: the scan of a five-line input keeps the end-marker
line in the output, whereas the claimed transition table predicts the
three-line output without it. -/
theorem C7_end_line_emitted_cx :
    lineFilter ["a".toList, ctgM1, "x".toList, ctgM2, "b".toList] =
      ["a".toList, ctgM2, "b".toList] ∧
    lineFilter ["a".toList, ctgM1, "x".toList, ctgM2, "b".toList] ≠
      ["a".toList, "b".toList] := by
  refine ⟨by decide, by decide⟩

/-- C7 amended: the actual per-line transitions of the loop: a start line is
not emitted and enters skipping (also when already skipping: the flag stays
flat, no nesting); an ordinary line while skipping is dropped; a line
containing the comment end-marker while skipping is EMITTED (the flag is
cleared before the copy decision); a line stripping to the closing brace
pair while skipping is consumed (the flag is cleared after the copy
decision). -/
theorem C7_actual_transitions :
    (∀ l, containsSub l ctgM1 = true → containsSub l ctgM2 = false →
      (pyStrip l == ctgClose) = false →
      scanStep false l = (true, none) ∧ scanStep true l = (true, none)) ∧
    (∀ l, containsSub l ctgM1 = false → containsSub l ctgM2 = false →
      containsSub l ctgStart2 = false → (pyStrip l == ctgClose) = false →
      scanStep false l = (false, some l) ∧ scanStep true l = (true, none)) ∧
    (∀ l, containsSub l ctgM2 = true → containsSub l ctgStart2 = false →
      scanStep true l = (false, some l)) ∧
    (∀ l, containsSub l ctgM2 = false → (pyStrip l == ctgClose) = true →
      scanStep true l = (false, none)) := by
  refine ⟨?_, ?_, ?_, ?_⟩
  · intro l h1 h2 h4
    exact scanStep_enter l h1 h2 h4
  · intro l h1 h2 h3 h4
    exact ⟨scanStep_copy l h1 h3, scanStep_skip_stay l h2 h4⟩
  · intro l h1 h2
    exact scanStep_end_emit l h1 h2
  · intro l h2 h4
    exact scanStep_close_consume l h2 h4

/-- C7 witness: the four transition shapes at concrete lines. -/
theorem C7_actual_transitions_w :
    scanStep false ctgM1 = (true, none) ∧
    scanStep true ("x".toList) = (true, none) ∧
    scanStep true ctgM2 = (false, some ctgM2) ∧
    scanStep true ("  \x7d;".toList) = (false, none) := by
  refine ⟨(C7_actual_transitions.1 ctgM1 (by decide) (by decide) (by decide)).1,
    (C7_actual_transitions.2.1 ("x".toList) (by decide) (by decide) (by decide) (by decide)).2,
    C7_actual_transitions.2.2.1 ctgM2 (by decide) (by decide),
    C7_actual_transitions.2.2.2 ("  \x7d;".toList) (by decide) (by decide)⟩

/-! ### Claim C10 -/

/-- C10: the net effect of clean_tracker_grid.py on the target file is the
single contiguous cut of the ORIGINAL content between the first occurrences
of the two markers (the spec-worded `ctgSpecCut`): the regex passes, the
intermediate slice and the line-scan loop have no effect on what is written,
because the final block re-reads the still-unwritten file; and when either
marker is absent, nothing is written. -/
theorem C10_net_effect :
    (∀ file, ctgScript file = ctgSpecCut file) ∧
    (∀ file, strFind file ctgM1 = none → ctgScript file = none) ∧
    (∀ file, strFind file ctgM2 = none → ctgScript file = none) := by
  refine ⟨fun file => rfl, ?_, ?_⟩
  · intro file h
    unfold ctgScript
    rw [h]
  · intro file h
    unfold ctgScript
    rw [h]
    cases strFind file ctgM1 <;> rfl

/-- C10 witness: a file without the markers is not written. -/
theorem C10_net_effect_w : ctgScript ("x".toList) = none :=
  C10_net_effect.2.1 ("x".toList) (by decide)

/-! ### Claim C2 -/

/-- C2 counterexample: on a buffer without the marker pair, the marker cut
of clean_habit_modal.py reports failure, yet the script still writes the
processed buffer back (the write is unconditional). -/
theorem C2_unconditional_write_cx :
    markerCutOk chmStart chmEnd (chmPasses ("hello".toList)) = false ∧
    chmWrite ("hello".toList) = some ("hello".toList) := by
  refine ⟨by decide, by decide⟩

/-- C2 amended: clean_habit_modal.py persists the processed buffer
unconditionally, even when its required marker cut failed to locate; only
fix_tracker_grid.py refuses to write, and only when both the cutoff search
and the fallback find nothing. -/
theorem C2_write_policy :
    (∀ c, chmWrite c = some (chmPipeline c)) ∧
    (∀ nb lines,
      (∀ l ∈ lines, containsSub l ftgM1 = false ∧ containsSub l ftgM2 = false) →
      (∀ l ∈ lines, containsSub l ftgNeedle = false) →
      ftgRun nb lines = none) := by
  refine ⟨fun c => rfl, ?_⟩
  intro nb lines hm hn
  unfold ftgRun
  rw [findCutoff_none lines hm]
  unfold fallbackCutoff
  rw [fallbackFind_none lines 0 hn]

/-- C2 witness: the write policy at concrete inputs. -/
theorem C2_write_policy_w :
    chmWrite ("hello".toList) = some (chmPipeline ("hello".toList)) ∧
    ftgRun [] [("x".toList)] = none :=
  ⟨C2_write_policy.1 ("hello".toList),
   C2_write_policy.2 [] [("x".toList)] (by decide) (by decide)⟩

/-! ### Claim C3 -/

/-- C3 counterexample: a buffer on which the first clean_habit_modal.py run
fully succeeds (the marker cut fires), yet the second run changes the buffer
again: removing the daysOfWeek literal re-forms the same literal across the
splice seam, so the removal pass matches again on the first run's output. -/
theorem C3_second_run_changes_cx :
    chmPipeline chmIdemB0 = chmIdemB1 ∧
    markerCutOk chmStart chmEnd (chmPasses chmIdemB0) = true ∧
    chmPipeline chmIdemB1 ≠ chmIdemB1 := by
  refine ⟨by decide, by decide, by decide⟩

/-- C3 amended: re-application is a no-op only conditionally: when the
removal and replacement passes do not touch the buffer and the start marker
does not reoccur after the cut (including across the splice seam), the first
run cuts the region and the second run leaves the buffer byte-identical,
its marker locator reporting not-found; without those conditions the
literal-removal passes can re-match spliced text, so byte-identity can fail
(see the counterexample). -/
theorem C3_conditional_idempotence (p q r : List Char)
    (hpass1 : chmPasses (p ++ chmStart ++ q ++ chmEnd ++ r) =
      p ++ chmStart ++ q ++ chmEnd ++ r)
    (h1 : ∀ i, i < p.length →
      chmStart.isPrefixOf ((p ++ chmStart ++ q ++ chmEnd ++ r).drop i) = false)
    (h2 : ∀ i, i < p.length + chmStart.length + q.length →
      chmEnd.isPrefixOf ((p ++ chmStart ++ q ++ chmEnd ++ r).drop i) = false)
    (hnosm : ∀ i, i ≤ (p ++ chmEnd ++ r).length →
      chmStart.isPrefixOf ((p ++ chmEnd ++ r).drop i) = false)
    (hnorm : normalizeBlank (p ++ chmEnd ++ r) = p ++ chmEnd ++ r)
    (hpass2 : chmPasses (p ++ chmEnd ++ r) = p ++ chmEnd ++ r) :
    chmPipeline (p ++ chmStart ++ q ++ chmEnd ++ r) = p ++ chmEnd ++ r ∧
    chmPipeline (p ++ chmEnd ++ r) = p ++ chmEnd ++ r ∧
    markerCutOk chmStart chmEnd (p ++ chmEnd ++ r) = false := by
  have hfind : strFind (p ++ chmEnd ++ r) chmStart = none := strFind_none_of _ _ hnosm
  refine ⟨?_, ?_, ?_⟩
  · unfold chmPipeline
    rw [hpass1, markerCut_at chmStart chmEnd p q r h1 h2, hnorm]
  · unfold chmPipeline
    rw [hpass2, markerCut_of_no_start chmStart chmEnd _ hfind, hnorm]
  · unfold markerCutOk
    rw [hfind]
    rfl

/-- C3 witness: the conditional idempotence at a small buffer that none of
the removal passes touch. -/
theorem C3_conditional_idempotence_w :
    chmPipeline ("A\n".toList ++ chmStart ++ "Q".toList ++ chmEnd ++ "B".toList) =
      "A\n".toList ++ chmEnd ++ "B".toList ∧
    chmPipeline ("A\n".toList ++ chmEnd ++ "B".toList) =
      "A\n".toList ++ chmEnd ++ "B".toList ∧
    markerCutOk chmStart chmEnd ("A\n".toList ++ chmEnd ++ "B".toList) = false := by
  exact C3_conditional_idempotence ("A\n".toList) ("Q".toList) ("B".toList)
    (by decide) (by decide) (by decide) (by decide) (by decide) (by decide)

/-! ### Claim C8 -/

/-- C8 counterexample: a run of only TWO blank lines (three consecutive
newlines) is also collapsed -- the pattern needs three newlines, not three
blank lines -- so runs of fewer than three blank lines are not left
unchanged. -/
theorem C8_two_blank_lines_collapsed_cx :
    normalizeBlank ("a\n\n\nb\n".toList) = "a\n\nb\n".toList ∧
    "a\n\n\nb\n".toList ≠ "a\n\nb\n".toList := by
  refine ⟨by decide, by decide⟩

/-- C8 amended: the normalization collapses every run of three or more
consecutive newlines (i.e. two or more blank lines) to exactly two newlines
(one blank line); a single blank line is left unchanged; the spec example
still holds; and the pass runs buffer-wide, exactly once per pipeline
application, as the last step. -/
theorem C8_collapse_threshold (n : Nat) (hn : 3 ≤ n) :
    normalizeBlank ('a' :: (List.replicate n '\n' ++ "b".toList)) =
      'a' :: ('\n' :: ('\n' :: "b".toList)) ∧
    normalizeBlank ("a\n\nb\n".toList) = "a\n\nb\n".toList ∧
    normalizeBlank ("a\n\n\n\nb\n".toList) = "a\n\nb\n".toList ∧
    (∀ c, chmPipeline c = normalizeBlank (markerCut chmStart chmEnd (chmPasses c))) := by
  refine ⟨?_, by decide, by decide, fun c => rfl⟩
  unfold normalizeBlank
  have ha : mBlankRun ('a' :: (List.replicate n '\n' ++ "b".toList)) = none := by
    rw [mBlankRun]
    rw [if_neg (by decide)]
  rw [reSub_cons_none _ _ _ _ ha]
  obtain ⟨m, rfl⟩ : ∃ m, n = m + 1 := ⟨n - 1, by omega⟩
  rw [List.replicate_succ, List.cons_append]
  have hm : mBlankRun ('\n' :: (List.replicate m '\n' ++ "b".toList)) = some (m + 1) := by
    have h := mBlankRun_rep (m + 1) (by omega) 'b' (by decide)
    rw [List.replicate_succ, List.cons_append] at h
    exact h
  rw [reSub_cons_some _ _ _ _ _ hm]
  rw [show m + 1 - 1 = m by omega]
  rw [rep_append_drop m m '\n' ("b".toList) (Nat.le_refl m)]
  rw [show m - m = 0 by omega]
  rw [show List.replicate 0 '\n' ++ "b".toList = "b".toList by simp]
  rw [show reSub mBlankRun ('\n' :: ('\n' :: [])) ("b".toList) = "b".toList by decide]
  rfl

/-- C8 witness: the collapse at the shortest run the pattern reaches, three
newlines (two blank lines). -/
theorem C8_collapse_threshold_w :
    normalizeBlank ('a' :: (List.replicate 3 '\n' ++ "b".toList)) =
      'a' :: ('\n' :: ('\n' :: "b".toList)) :=
  (C8_collapse_threshold 3 (by decide)).1
